import Mathlib

/-!
# CBT consistency check (`pkg/check/node_cbt.go`)

A shallow embedding of the `CollectNodeCBT` node check: `CheckNode` classifies one
virtual machine by its `ctkEnabled` extra-config entry, `FinishCheck` publishes the
per-cycle counts and the mismatch indicator on the gauge vector `cbtMismatchMetric`.

Conventions of the embedding.

* A Go `map[bool]int` is a record with one optional slot per key. A `nil` map and an
  empty map are both the record with two empty slots: the code assigns to a map only
  inside a `range` over that same map, which never runs on a `nil` map.
* The order of a Go `range` over a map is unspecified; every `range` takes the key that
  is visited first as an argument.
* The gauge vector is the log of its `WithLabelValues(l).Set(x)` calls, oldest first;
  what a gauge reads is the last value written under its label. Every value the code
  writes is `float64(n)` for a Go `int` `n` (or the constants `0` and `1`); the log keeps
  that integer.
* A Go string is taken as the sequence of its runes.
* `klog` calls are left out: they write diagnostics only. The `node` argument of
  `CheckNode` is read by those calls alone and is left out with them.
-/

namespace NodeCBT

/-! ## Maps keyed by `bool` -/

/-- A Go `map[bool]int`: the value stored under `true` and under `false`, if any. -/
structure BoolIntMap where
  onTrue : Option Int
  onFalse : Option Int
deriving DecidableEq, Repr

namespace BoolIntMap

/-- The map with no key, `map[bool]int{}` (and the `nil` map). -/
def empty : BoolIntMap := ⟨none, none⟩

/-- The two-valued lookup `v, ok := m[k]`. -/
def lookup (m : BoolIntMap) (k : Bool) : Option Int :=
  if k then m.onTrue else m.onFalse

/-- The index expression `m[k]`: the zero value when `k` is not a key. -/
def get (m : BoolIntMap) (k : Bool) : Int :=
  (m.lookup k).getD 0

/-- The assignment `m[k] = v`. -/
def set (m : BoolIntMap) (k : Bool) (v : Int) : BoolIntMap :=
  if k then { m with onTrue := some v } else { m with onFalse := some v }

/-- The entries met by `for k, v := range m`, when `first` is the key tried first. -/
def range (first : Bool) (m : BoolIntMap) : List (Bool × Int) :=
  [first, !first].filterMap fun k => (m.lookup k).map fun v => (k, v)

end BoolIntMap

/-! ## The gauge vector -/

/-- The calls `cbtMismatchMetric.WithLabelValues(label).Set(value)` made so far. -/
abbrev GaugeVec := List (String × Int)

/-- One call `WithLabelValues(label).Set(value)`. -/
def GaugeVec.Set (g : GaugeVec) (label : String) (value : Int) : GaugeVec :=
  g ++ [(label, value)]

/-- What the gauge labelled `label` reads: the value of the last `Set` under that label,
`none` when the label was never set. -/
def GaugeVec.read (g : GaugeVec) (label : String) : Option Int :=
  (g.reverse.find? fun w => w.1 == label).map Prod.snd

/-- The values written under `label`, oldest first. -/
def GaugeVec.writesTo (g : GaugeVec) (label : String) : List Int :=
  (g.filter fun w => w.1 == label).map Prod.snd

/-! ## Cluster information -/

/-- Modelled from the spec: the CBT counters of `ClusterInfo`, whose `SetCbtData` and
`GetCbtData` are not part of `node_cbt.go`. `cbtData` is the count per classification
(the spec's CycleCounts); `setCbtDataCalls` is the history of the arguments `SetCbtData`
was called with, oldest first. -/
structure ClusterInfo where
  cbtData : BoolIntMap
  setCbtDataCalls : List Bool
deriving DecidableEq, Repr

/-- Modelled from the spec: a fresh `ClusterInfo`, with no count and no call. -/
def ClusterInfo.new : ClusterInfo := ⟨BoolIntMap.empty, []⟩

/-- Modelled from the spec: `SetCbtData(enabled)` is the aggregator's `record`, which
"increments the count for classification `c` by one", in a width "sufficient for fleet
size without overflow risk". -/
def ClusterInfo.SetCbtData (ci : ClusterInfo) (enabled : Bool) : ClusterInfo :=
  { cbtData := ci.cbtData.set enabled (ci.cbtData.get enabled + 1)
    setCbtDataCalls := ci.setCbtDataCalls ++ [enabled] }

/-- Modelled from the spec: `GetCbtData()` is the aggregator's `snapshot`, the current
counts. -/
def ClusterInfo.GetCbtData (ci : ClusterInfo) : BoolIntMap := ci.cbtData

/-- The part of `CheckContext` the check uses. -/
structure CheckContext where
  ClusterInfo : ClusterInfo
deriving DecidableEq, Repr

/-! ## The checker -/

/-- The Go struct `CollectNodeCBT`. -/
structure CollectNodeCBT where
  lastMetricEmission : BoolIntMap
deriving DecidableEq, Repr

/-- The constant `CbtProperty`. -/
def CbtProperty : String := "ctkEnabled"

/-- The Go function `metricKey`. -/
def metricKey (enabled : Bool) : String :=
  if enabled then "ENABLED" else "DISABLED"

/-- The method `StartCheck`: it returns `nil` and changes nothing. -/
def StartCheck (c : CollectNodeCBT) : CollectNodeCBT × Option String :=
  (c, none)

/-- The method `FinishCheck`. `o1`, `o2`, `o3` give the key visited first by the three
`range` loops, in source order. The result is the checker and the gauge vector after
the call. -/
def FinishCheck (o1 o2 o3 : Bool) (c : CollectNodeCBT) (ctx : CheckContext)
    (metric : GaugeVec) : CollectNodeCBT × GaugeVec :=
  let cbtData := ctx.ClusterInfo.GetCbtData
  -- for k := range c.lastMetricEmission { c.lastMetricEmission[k] = 0 }
  let mem := (c.lastMetricEmission.range o1).foldl (fun m kv => m.set kv.1 0)
    c.lastMetricEmission
  -- the MISMATCH gauge
  let metric :=
    if cbtData.get true > 0 && cbtData.get false > 0 then metric.Set "MISMATCH" 1
    else metric.Set "MISMATCH" 0
  -- for cbtEnabled, count := range cbtData { ... Set(float64(count)) }
  let metric := (cbtData.range o2).foldl (fun g kv => g.Set (metricKey kv.1) kv.2) metric
  -- for k, v := range c.lastMetricEmission { if v == 0 { ... Set(0) } }
  let metric := (mem.range o3).foldl
    (fun g kv => if kv.2 == 0 then g.Set (metricKey kv.1) 0 else g) metric
  ({ lastMetricEmission := mem }, metric)

/-! ## Text rendering and case folding -/

/-- The dynamic values an extra-config entry carries (the Go `types.AnyType`, an
empty interface): a string, a boolean, an integer, or `nil`. -/
inductive AnyType where
  | str (s : String)
  | bool (b : Bool)
  | int (n : Int)
  | nil
deriving DecidableEq, Repr

/-- The text `fmt.Sprintf("%v", x)`. -/
def Sprintf_v : AnyType → String
  | .str s => s
  | .bool b => if b then "true" else "false"
  | .int n => toString n
  | .nil => "<nil>"

/-- The Go `unicode.SimpleFold` on the fold orbits that contain an ASCII letter:
`K k U+212A`, `S s U+017F`, and the pair `X x` for every other letter. A rune outside
these orbits is left fixed here; `EqualFold` folds only the smaller rune of a pair and
its successors below the larger one, so when one operand is ASCII no other rune is
ever folded. -/
def SimpleFold (r : Char) : Char :=
  let n := r.toNat
  if n = 0x4B then 'k' else if n = 0x6B then Char.ofNat 0x212A else if n = 0x212A then 'K'
  else if n = 0x53 then 's' else if n = 0x73 then Char.ofNat 0x17F else if n = 0x17F then 'S'
  else if 0x41 ≤ n ∧ n ≤ 0x5A then Char.ofNat (n + 0x20)
  else if 0x61 ≤ n ∧ n ≤ 0x7A then Char.ofNat (n - 0x20)
  else r

/-- The loop `for r != sr && r < tr { r = unicode.SimpleFold(r) }` of `EqualFold`, run
for at most `fuel` tests of its condition: the rune `r` it stops at, `none` when the
fuel runs out first. -/
def foldUpTo : Nat → Char → Char → Char → Option Char
  | 0, _, _, _ => none
  | fuel + 1, r, sr, tr =>
    if r ≠ sr ∧ r.toNat < tr.toNat then foldUpTo fuel (SimpleFold r) sr tr else some r

/-- The fuel given to `foldUpTo`: no fold orbit of Unicode has more than four runes. -/
def foldFuel : Nat := 5

/-- One round of the rune loop of `EqualFold`: whether the runes `sr0` of `s` and `tr0`
of `t` are equal under simple case folding. -/
def foldEqRune (sr0 tr0 : Char) : Option Bool :=
  if tr0 = sr0 then some true
  else
    -- make sr < tr
    let sr := if tr0.toNat < sr0.toNat then tr0 else sr0
    let tr := if tr0.toNat < sr0.toNat then sr0 else tr0
    if tr.toNat < 0x80 then
      -- ASCII: sr/tr must be upper/lower case
      some (decide (0x41 ≤ sr.toNat ∧ sr.toNat ≤ 0x5A ∧ tr.toNat = sr.toNat + 0x20))
    else
      (foldUpTo foldFuel (SimpleFold sr) sr tr).map fun r => r == tr

/-- The rune loop of the Go `strings.EqualFold`, on the runes of `s` and `t`. -/
def EqualFoldRunes : List Char → List Char → Option Bool
  | [], t => some t.isEmpty
  | _ :: _, [] => some false
  | sr :: s, tr :: t =>
    match foldEqRune sr tr with
    | none => none
    | some true => EqualFoldRunes s t
    | some false => some false

/-- The Go `strings.EqualFold(s, t)`; `none` when a fold loop runs out of fuel. -/
def EqualFold (s t : String) : Option Bool :=
  EqualFoldRunes s.data t.data

/-! ## Virtual machines -/

/-- The Go `types.OptionValue`: one key/value pair of the property bag. -/
structure OptionValue where
  Key : String
  Value : AnyType
deriving DecidableEq, Repr

/-- The part of `types.VirtualMachineConfigInfo` the check reads. `ExtraConfig` is the
property bag; a `nil` slice is the empty list. -/
structure VirtualMachineConfigInfo where
  ExtraConfig : List OptionValue
deriving DecidableEq, Repr

/-- The part of `mo.VirtualMachine` the check reads. `Config` is a pointer: `none` is
`nil`. -/
structure VirtualMachine where
  Config : Option VirtualMachineConfigInfo
deriving DecidableEq, Repr

/-- How a call ends: it returns, it panics, or the model ran out of fuel. -/
inductive Outcome (α : Type) where
  | returned (a : α)
  | panicked
  | outOfFuel
deriving DecidableEq, Repr

/-- The loop `for _, config := range vm.Config.ExtraConfig` of `CheckNode`, with its
`break`: the cluster information and `propFound` after the loop. -/
def scanExtraConfig (ci : ClusterInfo) : List OptionValue → Outcome (ClusterInfo × Bool)
  | [] => .returned (ci, false)
  | config :: rest =>
    if config.Key = CbtProperty then
      match EqualFold (Sprintf_v config.Value) "TRUE" with
      | none => .outOfFuel
      | some true => .returned (ci.SetCbtData true, true)
      | some false => .returned (ci.SetCbtData false, true)
    else scanExtraConfig ci rest

/-- The method `CheckNode`: the context after the call and the returned `error`
(`none` is `nil`). Reading `vm.Config.ExtraConfig` through a `nil` `vm.Config`
panics. -/
def CheckNode (ctx : CheckContext) (vm : VirtualMachine) :
    Outcome (CheckContext × Option String) :=
  match vm.Config with
  | none => .panicked
  | some config =>
    match scanExtraConfig ctx.ClusterInfo config.ExtraConfig with
    | .returned (ci, propFound) =>
      if !propFound then .returned ({ ClusterInfo := ci.SetCbtData false }, none)
      else .returned ({ ClusterInfo := ci }, none)
    | .panicked => .panicked
    | .outOfFuel => .outOfFuel

/-- The virtual machine whose configuration holds the property bag `bag`. -/
def vmOfBag (bag : List OptionValue) : VirtualMachine :=
  { Config := some { ExtraConfig := bag } }

/-- Modelled from the spec: the driver's loop over the entities of one cycle, which is
not part of `node_cbt.go`: `CheckNode` once per virtual machine, in order, stopping at
the first call that does not return. -/
def CheckNodes (ctx : CheckContext) : List VirtualMachine → Outcome CheckContext
  | [] => .returned ctx
  | vm :: vms =>
    match CheckNode ctx vm with
    | .returned (ctx1, _) => CheckNodes ctx1 vms
    | .panicked => .panicked
    | .outOfFuel => .outOfFuel

/-! ## Notions used to state the properties -/

/-- The calls made on the gauge vector between the states `before` and `after`. -/
def writesSince (before after : GaugeVec) : GaugeVec :=
  after.drop before.length

/-- The memory after the first loop of `FinishCheck`: every key kept, every value `0`. -/
def zeroed (m : BoolIntMap) : BoolIntMap :=
  ⟨m.onTrue.map fun _ => 0, m.onFalse.map fun _ => 0⟩

/-- The value `FinishCheck` writes under `"MISMATCH"`. -/
def mismatchValue (cbtData : BoolIntMap) : Int :=
  if cbtData.get true > 0 && cbtData.get false > 0 then 1 else 0

/-- The writes of the second loop of `FinishCheck`: one per key of the counts. -/
def countWrites (o2 : Bool) (cbtData : BoolIntMap) : GaugeVec :=
  (cbtData.range o2).map fun kv => (metricKey kv.1, kv.2)

/-- The writes of the third loop of `FinishCheck`: a zero per key of the memory. -/
def zeroWrites (o3 : Bool) (mem : BoolIntMap) : GaugeVec :=
  (mem.range o3).map fun kv => (metricKey kv.1, 0)

/-- The sixteen spellings of `true` that differ only in letter case. -/
def trueSpellings : List String :=
  ["true", "truE", "trUe", "trUE", "tRue", "tRuE", "tRUe", "tRUE",
   "True", "TruE", "TrUe", "TrUE", "TRue", "TRuE", "TRUe", "TRUE"]

/-- Whether four runes spell `true` up to letter case. -/
def spellsTrue : List Char → Bool
  | [a, b, c, d] =>
    (a = 'T' ∨ a = 't') ∧ (b = 'R' ∨ b = 'r') ∧ (c = 'U' ∨ c = 'u') ∧ (d = 'E' ∨ d = 'e')
  | _ => false

/-- The spec's `classify(bag, "ctkEnabled")`: `true` (ENABLED) when the first pair of the
bag whose key is exactly `ctkEnabled` has a value that renders as `true` up to letter
case, `false` (DISABLED) otherwise, also when no pair has that key. -/
def classify (bag : List OptionValue) : Bool :=
  match bag.find? fun p => decide (p.Key = CbtProperty) with
  | some p => decide (Sprintf_v p.Value ∈ trueSpellings)
  | none => false

/-- The counts after `n` calls of `SetCbtData(b)` on no count at all: no entry for
`n = 0`. -/
def countSlot (n : Nat) : Option Int :=
  if n = 0 then none else some (n : Int)

/-- Modelled from the spec: one cycle of the driver, which is not part of `node_cbt.go`,
on a fresh `ClusterInfo`: `StartCheck`, `CheckNode` once per virtual machine, then
`FinishCheck`. The result is the checker and the gauge vector after the cycle. -/
def runCycle (o1 o2 o3 : Bool) (c : CollectNodeCBT) (vms : List VirtualMachine)
    (metric : GaugeVec) : Outcome (CollectNodeCBT × GaugeVec) :=
  match CheckNodes { ClusterInfo := ClusterInfo.new } vms with
  | .returned ctx => .returned (FinishCheck o1 o2 o3 (StartCheck c).1 ctx metric)
  | .panicked => .panicked
  | .outOfFuel => .outOfFuel

/-- The context whose counts are `cbtData`, as `GetCbtData` returns them at the end of a
cycle. -/
def ctxOfCounts (cbtData : BoolIntMap) : CheckContext :=
  { ClusterInfo := { cbtData := cbtData, setCbtDataCalls := [] } }

/-! ## Sequences of calls -/

/-- What the calls of the driver act on: the checker, the check context the driver
passes to `CheckNode` and `FinishCheck`, and the gauge vector. -/
structure State where
  checker : CollectNodeCBT
  ctx : CheckContext
  metric : GaugeVec
deriving DecidableEq, Repr

/-- One call of the driver on the checker; `finishCheck` carries the iteration orders of
the three `range` loops. -/
inductive Call where
  | startCheck
  | checkNode (vm : VirtualMachine)
  | finishCheck (o1 o2 o3 : Bool)
deriving DecidableEq, Repr

/-- The state after one call. `StartCheck` has the checker as its only argument, so the
context and the gauge vector are out of its reach; `CheckNode` has no access to the
gauge vector and does not use its receiver; `FinishCheck` reads the context. -/
def step (s : State) : Call → Outcome State
  | .startCheck => .returned { s with checker := (StartCheck s.checker).1 }
  | .checkNode vm =>
    match CheckNode s.ctx vm with
    | .returned (ctx, _) => .returned { s with ctx := ctx }
    | .panicked => .panicked
    | .outOfFuel => .outOfFuel
  | .finishCheck o1 o2 o3 =>
    .returned { s with
      checker := (FinishCheck o1 o2 o3 s.checker s.ctx s.metric).1
      metric := (FinishCheck o1 o2 o3 s.checker s.ctx s.metric).2 }

/-- The state a sequence of calls ends in: the state after the last call, or the state
found by the first call that does not return. -/
def runCalls (s : State) : List Call → State
  | [] => s
  | call :: calls =>
    match step s call with
    | .returned s1 => runCalls s1 calls
    | .panicked => s
    | .outOfFuel => s

/-- The calls `CheckNode` of one cycle over property bags. -/
def checkNodeCalls (bags : List (List OptionValue)) : List Call :=
  bags.map fun bag => Call.checkNode (vmOfBag bag)

/-- What the gauge labelled `metricKey b` reads after `FinishCheck`, as a function of the
memory, the counts and the gauge vector before the call. -/
def classRead (mem cbtData : BoolIntMap) (metric : GaugeVec) (b : Bool) : Option Int :=
  match mem.lookup b, cbtData.lookup b with
  | some _, _ => some 0
  | none, some n => some n
  | none, none => metric.read (metricKey b)

/-! ## Lemmas on maps and on the gauge vector -/

theorem mem_range (m : BoolIntMap) (o k : Bool) (v : Int) :
    (k, v) ∈ m.range o ↔ m.lookup k = some v := by
  obtain ⟨mt, mf⟩ := m
  cases mt <;> cases mf <;> cases o <;> cases k <;>
    simp [BoolIntMap.range, BoolIntMap.lookup, eq_comm]

theorem foldl_reset (o1 : Bool) (m : BoolIntMap) :
    (m.range o1).foldl (fun m kv => m.set kv.1 0) m = zeroed m := by
  obtain ⟨mt, mf⟩ := m
  cases mt <;> cases mf <;> cases o1 <;>
    simp [BoolIntMap.range, BoolIntMap.lookup, BoolIntMap.set, zeroed]

theorem foldl_count (l : List (Bool × Int)) (g : GaugeVec) :
    l.foldl (fun g kv => g.Set (metricKey kv.1) kv.2) g
      = g ++ l.map fun kv => (metricKey kv.1, kv.2) := by
  induction l generalizing g with
  | nil => simp
  | cons a l ih =>
    rw [List.foldl_cons, ih]
    simp [GaugeVec.Set]

theorem range_zeroed (o : Bool) (m : BoolIntMap) :
    (zeroed m).range o = (m.range o).map fun kv => (kv.1, 0) := by
  obtain ⟨mt, mf⟩ := m
  cases mt <;> cases mf <;> cases o <;>
    simp [BoolIntMap.range, BoolIntMap.lookup, zeroed]

theorem foldl_zero (l : List (Bool × Int)) (g : GaugeVec) (h : ∀ kv ∈ l, kv.2 = 0) :
    l.foldl (fun g kv => if kv.2 == 0 then g.Set (metricKey kv.1) 0 else g) g
      = g ++ l.map fun kv => (metricKey kv.1, 0) := by
  induction l generalizing g with
  | nil => simp
  | cons a l ih =>
    have ha : a.2 = 0 := h a (List.mem_cons_self _ _)
    have hl : ∀ kv ∈ l, kv.2 = 0 := fun kv hkv => h kv (List.mem_cons_of_mem _ hkv)
    rw [List.foldl_cons, ih _ hl]
    simp [ha, GaugeVec.Set]

/-- What `FinishCheck` does, loop by loop: the memory keeps its keys with value `0`; the
gauge vector gets the `MISMATCH` write, then one count per key of the counts, then one
zero per key of the memory. -/
theorem FinishCheck_eq (o1 o2 o3 : Bool) (c : CollectNodeCBT) (ctx : CheckContext)
    (metric : GaugeVec) :
    FinishCheck o1 o2 o3 c ctx metric =
      (⟨zeroed c.lastMetricEmission⟩,
        metric ++ (("MISMATCH", mismatchValue ctx.ClusterInfo.cbtData)
          :: (countWrites o2 ctx.ClusterInfo.cbtData
            ++ zeroWrites o3 c.lastMetricEmission))) := by
  unfold FinishCheck
  simp only [foldl_reset, foldl_count, ClusterInfo.GetCbtData]
  rw [foldl_zero _ _ (by
    intro kv hkv
    rw [range_zeroed] at hkv
    obtain ⟨x, _, rfl⟩ := List.mem_map.1 hkv
    rfl)]
  rw [range_zeroed]
  simp only [countWrites, zeroWrites, mismatchValue, List.map_map]
  split <;> simp [GaugeVec.Set, Function.comp_def]

/-- After `FinishCheck` the memory has the keys it had before, each with value `0`. -/
theorem FinishCheck_memory (o1 o2 o3 : Bool) (c : CollectNodeCBT) (ctx : CheckContext)
    (metric : GaugeVec) :
    (FinishCheck o1 o2 o3 c ctx metric).1.lastMetricEmission = zeroed c.lastMetricEmission := by
  rw [FinishCheck_eq]

theorem writesSince_append (g ws : GaugeVec) : writesSince g (g ++ ws) = ws := by
  simp [writesSince]

/-! ## Lemmas on case folding -/

theorem char_eq_of_toNat_eq {a b : Char} (h : a.toNat = b.toNat) : a = b := by
  apply Char.ext
  apply UInt32.ext
  exact h

/-- Folding against an upper-case letter `L` whose orbit is the pair `L`, `l`: only `L`
and `l` are equal to it under simple folding, and the fold loop ends within its fuel. -/
theorem foldEqRune_upper (c L l : Char) (hL : 0x41 ≤ L.toNat ∧ L.toNat ≤ 0x5A)
    (hl : l.toNat = L.toNat + 0x20)
    (hf : SimpleFold L = l) (hb : SimpleFold l = L) :
    foldEqRune c L = some (decide (c = L ∨ c = l)) := by
  unfold foldEqRune
  by_cases h1 : L = c
  · subst h1; simp
  · have h1n : c.toNat ≠ L.toNat := fun h => h1 (char_eq_of_toNat_eq h.symm)
    have h1c : ¬ c = L := fun h => h1 h.symm
    rw [if_neg h1]
    by_cases h2 : L.toNat < c.toNat
    · simp only [h2, if_true]
      by_cases h3 : c.toNat < 0x80
      · simp only [h3, if_true]
        congr 1
        simp only [h1c, false_or, decide_eq_decide]
        constructor
        · intro h; exact char_eq_of_toNat_eq (by omega)
        · intro h; subst h; omega
      · simp only [h3, if_false]
        have hcl : ¬ c = l := fun h => by subst h; omega
        have hlL : l ≠ L := fun h => by rw [h] at hl; omega
        simp only [foldFuel, foldUpTo, hf, hb]
        have : l.toNat < c.toNat := by omega
        simp [hlL, this, h1, h1c, hcl]
    · simp only [h2, if_false]
      have h4 : L.toNat < 0x80 := by omega
      simp only [h4, if_true]
      congr 1
      have hcl : ¬ c = l := fun h => by subst h; omega
      simp only [h1c, hcl, or_self, decide_eq_decide]
      simp
      omega

theorem foldEqRune_T (c : Char) : foldEqRune c 'T' = some (decide (c = 'T' ∨ c = 't')) :=
  foldEqRune_upper c 'T' 't' (by decide) (by decide) (by decide) (by decide)

theorem foldEqRune_R (c : Char) : foldEqRune c 'R' = some (decide (c = 'R' ∨ c = 'r')) :=
  foldEqRune_upper c 'R' 'r' (by decide) (by decide) (by decide) (by decide)

theorem foldEqRune_U (c : Char) : foldEqRune c 'U' = some (decide (c = 'U' ∨ c = 'u')) :=
  foldEqRune_upper c 'U' 'u' (by decide) (by decide) (by decide) (by decide)

theorem foldEqRune_E (c : Char) : foldEqRune c 'E' = some (decide (c = 'E' ∨ c = 'e')) :=
  foldEqRune_upper c 'E' 'e' (by decide) (by decide) (by decide) (by decide)

theorem EqualFoldRunes_TRUE (l : List Char) :
    EqualFoldRunes l ['T', 'R', 'U', 'E'] = some (spellsTrue l) := by
  match l with
  | [] => rfl
  | [a] =>
    simp only [EqualFoldRunes, foldEqRune_T, spellsTrue]
    by_cases ha : (a = 'T' ∨ a = 't') <;> simp [ha]
  | [a, b] =>
    simp only [EqualFoldRunes, foldEqRune_T, foldEqRune_R, spellsTrue]
    by_cases ha : (a = 'T' ∨ a = 't') <;> by_cases hb : (b = 'R' ∨ b = 'r') <;> simp [ha, hb]
  | [a, b, c] =>
    simp only [EqualFoldRunes, foldEqRune_T, foldEqRune_R, foldEqRune_U, spellsTrue]
    by_cases ha : (a = 'T' ∨ a = 't') <;> by_cases hb : (b = 'R' ∨ b = 'r') <;>
      by_cases hc : (c = 'U' ∨ c = 'u') <;> simp [ha, hb, hc]
  | [a, b, c, d] =>
    simp only [EqualFoldRunes, foldEqRune_T, foldEqRune_R, foldEqRune_U, foldEqRune_E,
      spellsTrue]
    by_cases ha : (a = 'T' ∨ a = 't') <;> by_cases hb : (b = 'R' ∨ b = 'r') <;>
      by_cases hc : (c = 'U' ∨ c = 'u') <;> by_cases hd : (d = 'E' ∨ d = 'e') <;>
      simp [ha, hb, hc, hd]
  | a :: b :: c :: d :: e :: l =>
    simp only [EqualFoldRunes, foldEqRune_T, foldEqRune_R, foldEqRune_U, foldEqRune_E,
      spellsTrue]
    by_cases ha : (a = 'T' ∨ a = 't') <;> by_cases hb : (b = 'R' ∨ b = 'r') <;>
      by_cases hc : (c = 'U' ∨ c = 'u') <;> by_cases hd : (d = 'E' ∨ d = 'e') <;>
      simp [ha, hb, hc, hd]

theorem spellsTrue_iff (s : String) : spellsTrue s.data = true ↔ s ∈ trueSpellings := by
  constructor
  · intro h
    obtain ⟨l⟩ := s
    match l, h with
    | [a, b, c, d], h =>
      simp only [spellsTrue, Bool.decide_and, Bool.and_eq_true, decide_eq_true_eq] at h
      obtain ⟨ha, hb, hc, hd⟩ := h
      rcases ha with rfl | rfl <;> rcases hb with rfl | rfl <;> rcases hc with rfl | rfl <;>
        rcases hd with rfl | rfl <;> decide
  · intro h
    simp only [trueSpellings, List.mem_cons, List.mem_singleton, List.not_mem_nil,
      or_false] at h
    rcases h with rfl | rfl | rfl | rfl | rfl | rfl | rfl | rfl | rfl | rfl | rfl | rfl |
      rfl | rfl | rfl | rfl <;> decide

/-- The call `strings.EqualFold(s, "TRUE")` returns, and returns `true` exactly on the
sixteen spellings of `true`. -/
theorem EqualFold_TRUE (s : String) :
    EqualFold s "TRUE" = some (decide (s ∈ trueSpellings)) := by
  unfold EqualFold
  show EqualFoldRunes s.data ['T', 'R', 'U', 'E'] = _
  rw [EqualFoldRunes_TRUE]
  congr 1
  rw [Bool.eq_iff_iff]
  simp only [decide_eq_true_eq]
  exact spellsTrue_iff s

/-! ## Lemmas on `CheckNode` -/

theorem scanExtraConfig_eq (ci : ClusterInfo) (bag : List OptionValue) :
    scanExtraConfig ci bag =
      match bag.find? fun p => decide (p.Key = CbtProperty) with
      | some p => .returned (ci.SetCbtData (decide (Sprintf_v p.Value ∈ trueSpellings)), true)
      | none => .returned (ci, false) := by
  induction bag with
  | nil => rfl
  | cons p bag ih =>
    unfold scanExtraConfig
    by_cases h : p.Key = CbtProperty
    · simp only [h, if_true, List.find?_cons_of_pos, decide_True, EqualFold_TRUE]
      by_cases hs : Sprintf_v p.Value ∈ trueSpellings <;> simp [hs]
    · simp only [h, if_false, ih]
      rw [List.find?_cons_of_neg _ (by simpa using h)]

/-- On a virtual machine that has a property bag, `CheckNode` returns `nil` after one
call of `SetCbtData`, with the classification of the bag. -/
theorem CheckNode_vmOfBag (ctx : CheckContext) (bag : List OptionValue) :
    CheckNode ctx (vmOfBag bag) =
      .returned ({ ClusterInfo := ctx.ClusterInfo.SetCbtData (classify bag) }, none) := by
  unfold CheckNode vmOfBag classify
  simp only [scanExtraConfig_eq]
  cases bag.find? fun p => decide (p.Key = CbtProperty) <;> simp

theorem CheckNodes_vmOfBag (ctx : CheckContext) (bags : List (List OptionValue)) :
    CheckNodes ctx (bags.map vmOfBag) =
      .returned { ClusterInfo :=
        bags.foldl (fun ci bag => ci.SetCbtData (classify bag)) ctx.ClusterInfo } := by
  induction bags generalizing ctx with
  | nil => rfl
  | cons bag bags ih =>
    simp only [List.map_cons, CheckNodes, CheckNode_vmOfBag, ih, List.foldl_cons]

theorem countSlot_getD (n : Nat) : (countSlot n).getD 0 = (n : Int) := by
  unfold countSlot
  split <;> simp [*]

theorem SetCbtData_counts (nE nD : Nat) (calls : List Bool) (b : Bool) :
    ClusterInfo.SetCbtData ⟨⟨countSlot nE, countSlot nD⟩, calls⟩ b =
      ⟨⟨countSlot (nE + if b then 1 else 0), countSlot (nD + if b then 0 else 1)⟩,
        calls ++ [b]⟩ := by
  cases b <;>
    simp [ClusterInfo.SetCbtData, BoolIntMap.set, BoolIntMap.get, BoolIntMap.lookup,
      countSlot_getD] <;> simp [countSlot]

theorem foldl_SetCbtData (bags : List (List OptionValue)) (nE nD : Nat) (calls : List Bool) :
    bags.foldl (fun (ci : ClusterInfo) bag => ci.SetCbtData (classify bag))
        ⟨⟨countSlot nE, countSlot nD⟩, calls⟩
      = ⟨⟨countSlot (nE + (bags.filter classify).length),
          countSlot (nD + (bags.filter fun bag => !classify bag).length)⟩,
        calls ++ bags.map classify⟩ := by
  induction bags generalizing nE nD calls with
  | nil => simp
  | cons bag bags ih =>
    rw [List.foldl_cons, SetCbtData_counts, ih]
    cases h : classify bag <;> simp [h, List.filter_cons, Nat.add_assoc, Nat.add_comm 1]

/-- A cycle of `CheckNode` calls on a fresh `ClusterInfo`: the counts are the number of
bags of each classification, with no entry for a classification that did not occur. -/
theorem CheckNodes_new (bags : List (List OptionValue)) :
    CheckNodes { ClusterInfo := ClusterInfo.new } (bags.map vmOfBag) =
      .returned { ClusterInfo :=
        ⟨⟨countSlot (bags.filter classify).length,
          countSlot (bags.filter fun bag => !classify bag).length⟩, bags.map classify⟩ } := by
  rw [CheckNodes_vmOfBag]
  have h := foldl_SetCbtData bags 0 0 []
  simp only [Nat.zero_add, List.nil_append] at h
  exact congrArg (fun ci => Outcome.returned (CheckContext.mk ci)) h

theorem find?_first_match (pre tail : List OptionValue) (v : AnyType)
    (h : ∀ p ∈ pre, p.Key ≠ CbtProperty) :
    ((pre ++ [(⟨CbtProperty, v⟩ : OptionValue)] ++ tail).find?
        fun (q : OptionValue) => decide (q.Key = CbtProperty))
      = some ⟨CbtProperty, v⟩ := by
  induction pre with
  | nil => simp
  | cons q pre ih =>
    have hq : q.Key ≠ CbtProperty := h q (List.mem_cons_self _ _)
    have hpre : ∀ p ∈ pre, p.Key ≠ CbtProperty :=
      fun p hp => h p (List.mem_cons_of_mem _ hp)
    simp only [List.cons_append]
    rw [List.find?_cons_of_neg _ (by simpa using hq)]
    exact ih hpre

theorem read_append (g ws : GaugeVec) (l : String) :
    (g ++ ws).read l = match ws.read l with
      | some v => some v
      | none => g.read l := by
  unfold GaugeVec.read
  rw [List.reverse_append, List.find?_append]
  cases (ws.reverse.find? fun w => w.1 == l) <;> simp

theorem read_cons_self (l : String) (v : Int) (ws : GaugeVec) (h : ∀ w ∈ ws, w.1 ≠ l) :
    GaugeVec.read ((l, v) :: ws) l = some v := by
  have hfind : (ws.reverse.find? fun w => w.1 == l) = none := by
    rw [List.find?_eq_none]
    intro w hw
    simpa using h w (List.mem_reverse.1 hw)
  simp [GaugeVec.read, List.find?_append, hfind]

theorem metricKey_ne_mismatch (b : Bool) : metricKey b ≠ "MISMATCH" := by
  cases b <;> decide

theorem metricKey_inj {a b : Bool} (h : metricKey a = metricKey b) : a = b := by
  revert h
  cases a <;> cases b <;> decide

theorem countWrites_countSlot (o2 : Bool) (nE nD : Nat) :
    countWrites o2 ⟨countSlot nE, countSlot nD⟩ =
      if o2 then
        (if nE = 0 then [] else [("ENABLED", (nE : Int))])
          ++ (if nD = 0 then [] else [("DISABLED", (nD : Int))])
      else
        (if nD = 0 then [] else [("DISABLED", (nD : Int))])
          ++ (if nE = 0 then [] else [("ENABLED", (nE : Int))]) := by
  cases o2 <;> by_cases hE : nE = 0 <;> by_cases hD : nD = 0 <;>
    simp [countWrites, BoolIntMap.range, BoolIntMap.lookup, countSlot, metricKey, hE, hD]

/-- One cycle over property bags, written out: it returns, and the gauge vector gets the
`MISMATCH` write, the counts of the classifications that occurred, and a zero per key
of the memory. -/
theorem runCycle_vmOfBag (o1 o2 o3 : Bool) (c : CollectNodeCBT)
    (bags : List (List OptionValue)) (metric : GaugeVec) :
    runCycle o1 o2 o3 c (bags.map vmOfBag) metric =
      .returned (⟨zeroed c.lastMetricEmission⟩,
        metric ++ (("MISMATCH", mismatchValue ⟨countSlot (bags.filter classify).length,
            countSlot (bags.filter fun bag => !classify bag).length⟩)
          :: (countWrites o2 ⟨countSlot (bags.filter classify).length,
                countSlot (bags.filter fun bag => !classify bag).length⟩
            ++ zeroWrites o3 c.lastMetricEmission))) := by
  rw [runCycle, CheckNodes_new]
  simp only [FinishCheck_eq, StartCheck]

/-- A classification that is a key of the counts and not a key of the memory: after
`FinishCheck` its gauge reads its count. -/
theorem FinishCheck_read_count (o1 o2 o3 : Bool) (c : CollectNodeCBT) (ctx : CheckContext)
    (metric : GaugeVec) (b : Bool) (n : Int)
    (hn : ctx.ClusterInfo.GetCbtData.lookup b = some n)
    (hc : c.lastMetricEmission.lookup b = none) :
    (FinishCheck o1 o2 o3 c ctx metric).2.read (metricKey b) = some n := by
  rw [FinishCheck_eq, read_append]
  obtain ⟨⟨mt, mf⟩⟩ := c
  obtain ⟨⟨⟨ct, cf⟩, calls⟩⟩ := ctx
  cases b <;> cases o2 <;> cases o3 <;> cases mt <;> cases mf <;> cases ct <;> cases cf <;>
    simp_all [GaugeVec.read, countWrites, zeroWrites, BoolIntMap.range, BoolIntMap.lookup,
      ClusterInfo.GetCbtData, metricKey]

/-- A classification that is a key of the memory: after `FinishCheck` its gauge reads
`0`, whatever its count. -/
theorem FinishCheck_read_zero (o1 o2 o3 : Bool) (c : CollectNodeCBT) (ctx : CheckContext)
    (metric : GaugeVec) (b : Bool) (x : Int)
    (hc : c.lastMetricEmission.lookup b = some x) :
    (FinishCheck o1 o2 o3 c ctx metric).2.read (metricKey b) = some 0 := by
  rw [FinishCheck_eq, read_append]
  obtain ⟨⟨mt, mf⟩⟩ := c
  obtain ⟨⟨⟨ct, cf⟩, calls⟩⟩ := ctx
  cases b <;> cases o2 <;> cases o3 <;> cases mt <;> cases mf <;> cases ct <;> cases cf <;>
    simp_all [GaugeVec.read, countWrites, zeroWrites, BoolIntMap.range, BoolIntMap.lookup,
      ClusterInfo.GetCbtData, metricKey]

/-- A classification that is a key neither of the counts nor of the memory: `FinishCheck`
leaves what its gauge reads as it was. -/
theorem FinishCheck_read_untouched (o1 o2 o3 : Bool) (c : CollectNodeCBT)
    (ctx : CheckContext) (metric : GaugeVec) (b : Bool)
    (hn : ctx.ClusterInfo.GetCbtData.lookup b = none)
    (hc : c.lastMetricEmission.lookup b = none) :
    (FinishCheck o1 o2 o3 c ctx metric).2.read (metricKey b) = metric.read (metricKey b) := by
  rw [FinishCheck_eq, read_append]
  obtain ⟨⟨mt, mf⟩⟩ := c
  obtain ⟨⟨⟨ct, cf⟩, calls⟩⟩ := ctx
  cases b <;> cases o2 <;> cases o3 <;> cases mt <;> cases mf <;> cases ct <;> cases cf <;>
    simp_all [GaugeVec.read, countWrites, zeroWrites, BoolIntMap.range, BoolIntMap.lookup,
      ClusterInfo.GetCbtData, metricKey]

/-! ## The report at the end of a cycle (`FinishCheck`) -/

/-- C1 (the code at the claim's own cycles): a checker created with an empty
`lastMetricEmission` reports the counts `{ENABLED: 5, DISABLED: 2}` and then the counts
`{ENABLED: 7}`. The second `FinishCheck` writes `MISMATCH = 0` and `ENABLED = 7` and
nothing else: the memory is still empty, no zero is written, and the gauge `DISABLED`
still reads the count `2` of the first cycle. -/
theorem C1_stale_label_not_zeroed (o1 o2 o3 o4 o5 o6 : Bool) :
    writesSince
        (FinishCheck o1 o2 o3 ⟨BoolIntMap.empty⟩ (ctxOfCounts ⟨some 5, some 2⟩) []).2
        (FinishCheck o4 o5 o6
          (FinishCheck o1 o2 o3 ⟨BoolIntMap.empty⟩ (ctxOfCounts ⟨some 5, some 2⟩) []).1
          (ctxOfCounts ⟨some 7, none⟩)
          (FinishCheck o1 o2 o3 ⟨BoolIntMap.empty⟩ (ctxOfCounts ⟨some 5, some 2⟩) []).2).2
      = [("MISMATCH", 0), ("ENABLED", 7)] ∧
    (FinishCheck o4 o5 o6
        (FinishCheck o1 o2 o3 ⟨BoolIntMap.empty⟩ (ctxOfCounts ⟨some 5, some 2⟩) []).1
        (ctxOfCounts ⟨some 7, none⟩)
        (FinishCheck o1 o2 o3 ⟨BoolIntMap.empty⟩ (ctxOfCounts ⟨some 5, some 2⟩) []).2).2.read
      "DISABLED" = some 2 := by
  revert o1 o2 o3 o4 o5 o6
  decide

/-- C2: for every list of property bags, a cycle that starts from a fresh `ClusterInfo`
and a checker with an empty `lastMetricEmission`, calls `CheckNode` once per bag and then
`FinishCheck`, returns, and leaves the gauge `ENABLED` at the number of bags classified
ENABLED when that number is positive, the gauge `DISABLED` at the number of the other
bags when that number is positive, and the gauge `MISMATCH` at `1` when both numbers are
positive and at `0` otherwise. -/
theorem C2_end_to_end_cycle (bags : List (List OptionValue)) (o1 o2 o3 : Bool)
    (metric : GaugeVec) :
    ∃ (c : CollectNodeCBT) (g : GaugeVec),
      runCycle o1 o2 o3 ⟨BoolIntMap.empty⟩ (bags.map vmOfBag) metric = .returned (c, g) ∧
      (0 < (bags.filter classify).length →
        g.read "ENABLED" = some ((bags.filter classify).length : Int)) ∧
      (0 < (bags.filter fun bag => !classify bag).length →
        g.read "DISABLED" = some ((bags.filter fun bag => !classify bag).length : Int)) ∧
      g.read "MISMATCH" =
        some (if 0 < (bags.filter classify).length ∧
                0 < (bags.filter fun bag => !classify bag).length then 1 else 0) := by
  refine ⟨_, _, runCycle_vmOfBag o1 o2 o3 _ bags metric, ?_⟩
  generalize (bags.filter classify).length = nE
  generalize (bags.filter fun bag => !classify bag).length = nD
  simp only [read_append, countWrites_countSlot]
  have hz : zeroWrites o3 BoolIntMap.empty = [] := by cases o3 <;> rfl
  rw [hz, List.append_nil]
  have hm : mismatchValue ⟨countSlot nE, countSlot nD⟩ = if 0 < nE ∧ 0 < nD then 1 else 0 := by
    simp only [mismatchValue, BoolIntMap.get, BoolIntMap.lookup, if_true, Bool.false_eq_true,
      if_false, countSlot_getD]
    by_cases hE : 0 < nE <;> by_cases hD : 0 < nD <;> simp [hE, hD]
  rw [hm]
  refine ⟨fun hE => ?_, fun hD => ?_, ?_⟩
  · have hE0 : nE ≠ 0 := by omega
    cases o2 <;> by_cases hD : nD = 0 <;> simp [GaugeVec.read, hE0, hD]
  · have hD0 : nD ≠ 0 := by omega
    cases o2 <;> by_cases hE : nE = 0 <;> simp [GaugeVec.read, hD0, hE]
  · cases o2 <;> by_cases hE : nE = 0 <;> by_cases hD : nD = 0 <;>
      simp [GaugeVec.read, hE, hD]

/-- C2, at the bags `[{ctkEnabled: "TRUE"}, {ctkEnabled: "false"}, {}]`: the cycle ends
with `ENABLED = 1`, `DISABLED = 2`, `MISMATCH = 1`. -/
theorem C2_end_to_end_cycle_witness :
    ∃ (c : CollectNodeCBT) (g : GaugeVec),
      runCycle true true true ⟨BoolIntMap.empty⟩
        ([[⟨"ctkEnabled", .str "TRUE"⟩], [⟨"ctkEnabled", .str "false"⟩], []].map vmOfBag) []
        = .returned (c, g) ∧
      g.read "ENABLED" = some 1 ∧ g.read "DISABLED" = some 2 ∧ g.read "MISMATCH" = some 1 := by
  obtain ⟨c, g, h, hE, hD, hM⟩ := C2_end_to_end_cycle
    [[⟨"ctkEnabled", .str "TRUE"⟩], [⟨"ctkEnabled", .str "false"⟩], []] true true true []
  exact ⟨c, g, h, hE (by decide), hD (by decide), hM⟩

/-- C3: for every counts map, every memory and every gauge vector, `FinishCheck` only
adds writes to the gauge vector, and exactly one of them is under `"MISMATCH"`: the value
`1` if the ENABLED count and the DISABLED count are both strictly positive, `0`
otherwise, a classification absent from the map counting as zero. That value is what the
gauge `MISMATCH` reads afterwards. -/
theorem C3_mismatch_correctness (o1 o2 o3 : Bool) (c : CollectNodeCBT) (ctx : CheckContext)
    (metric : GaugeVec) :
    metric <+: (FinishCheck o1 o2 o3 c ctx metric).2 ∧
    (writesSince metric (FinishCheck o1 o2 o3 c ctx metric).2).writesTo "MISMATCH" =
      [if 0 < ctx.ClusterInfo.GetCbtData.get true ∧ 0 < ctx.ClusterInfo.GetCbtData.get false
        then 1 else 0] ∧
    (FinishCheck o1 o2 o3 c ctx metric).2.read "MISMATCH" =
      some (if 0 < ctx.ClusterInfo.GetCbtData.get true ∧
              0 < ctx.ClusterInfo.GetCbtData.get false then 1 else 0) := by
  rw [FinishCheck_eq, writesSince_append]
  have hm : mismatchValue ctx.ClusterInfo.cbtData =
      if 0 < ctx.ClusterInfo.GetCbtData.get true ∧ 0 < ctx.ClusterInfo.GetCbtData.get false
        then 1 else 0 := by
    simp only [mismatchValue, ClusterInfo.GetCbtData]
    by_cases hE : 0 < ctx.ClusterInfo.cbtData.get true <;>
      by_cases hD : 0 < ctx.ClusterInfo.cbtData.get false <;> simp [hE, hD]
  have hnone : ∀ ws : GaugeVec, (∀ w ∈ ws, ∃ b, w.1 = metricKey b) →
      ws.filter (fun w => w.1 == "MISMATCH") = [] := by
    intro ws hws
    rw [List.filter_eq_nil_iff]
    intro w hw
    obtain ⟨b, hb⟩ := hws w hw
    simpa [hb] using metricKey_ne_mismatch b
  have hrest : ∀ w ∈ countWrites o2 ctx.ClusterInfo.cbtData
      ++ zeroWrites o3 c.lastMetricEmission, ∃ b, w.1 = metricKey b := by
    intro w hw
    rcases List.mem_append.1 hw with hw | hw
    · obtain ⟨kv, _, rfl⟩ := List.mem_map.1 hw
      exact ⟨kv.1, rfl⟩
    · obtain ⟨kv, _, rfl⟩ := List.mem_map.1 hw
      exact ⟨kv.1, rfl⟩
  have hfilter := hnone _ hrest
  refine ⟨⟨_, rfl⟩, ?_, ?_⟩
  · simp [GaugeVec.writesTo, List.filter_cons, hfilter, hm]
  · rw [read_append, ← hm, read_cons_self]
    intro w hw
    obtain ⟨b, hb⟩ := hrest w hw
    rw [hb]
    exact metricKey_ne_mismatch b

/-- C5 (the code at a positive count): with an empty `lastMetricEmission` and the counts
`{ENABLED: 3}`, the memory after `FinishCheck` is still empty: it holds no entry for
ENABLED, whose count is `3`. -/
theorem C5_memory_never_marks_emitted (o1 o2 o3 : Bool) :
    (FinishCheck o1 o2 o3 ⟨BoolIntMap.empty⟩ (ctxOfCounts ⟨some 3, none⟩) []).1
        = ⟨BoolIntMap.empty⟩ ∧
    (FinishCheck o1 o2 o3 ⟨BoolIntMap.empty⟩ (ctxOfCounts ⟨some 3, none⟩)
        []).1.lastMetricEmission.lookup true = none ∧
    0 < (ctxOfCounts ⟨some 3, none⟩).ClusterInfo.GetCbtData.get true := by
  revert o1 o2 o3
  decide

/-- C6: for every counts map, every memory and every gauge vector, every value `v` that
`FinishCheck` writes to the gauge of a classification `b` (label `ENABLED` or
`DISABLED`) is `0` or the count of `b` in the counts it reads. -/
theorem C6_no_stale_nonzero_write (o1 o2 o3 : Bool) (c : CollectNodeCBT)
    (ctx : CheckContext) (metric : GaugeVec) (b : Bool) (v : Int)
    (h : (metricKey b, v) ∈ writesSince metric (FinishCheck o1 o2 o3 c ctx metric).2) :
    v = 0 ∨ v = ctx.ClusterInfo.GetCbtData.get b := by
  rw [FinishCheck_eq, writesSince_append] at h
  rcases List.mem_cons.1 h with h | h
  · exact absurd (congrArg Prod.fst h) (metricKey_ne_mismatch b)
  · rcases List.mem_append.1 h with h | h
    · right
      obtain ⟨kv, hkv, heq⟩ := List.mem_map.1 h
      obtain ⟨k, w⟩ := kv
      have hk : k = b := metricKey_inj (congrArg Prod.fst heq)
      have hw : w = v := congrArg Prod.snd heq
      subst hk hw
      have := (mem_range _ _ _ _).1 hkv
      simp [ClusterInfo.GetCbtData, BoolIntMap.get, this]
    · left
      obtain ⟨kv, _, heq⟩ := List.mem_map.1 h
      exact (congrArg Prod.snd heq).symm

/-- C6, at a memory `{false: 4}` and the counts `{ENABLED: 3}`: the write `ENABLED = 3`
is the count of this cycle, and the write `DISABLED = 0` is a zero. -/
theorem C6_no_stale_nonzero_write_witness :
    (metricKey true, 3) ∈ writesSince [("DISABLED", 4)]
      (FinishCheck true true true ⟨⟨none, some 4⟩⟩ (ctxOfCounts ⟨some 3, none⟩)
        [("DISABLED", 4)]).2 ∧
    ((3 : Int) = 0 ∨ (3 : Int) = (ctxOfCounts ⟨some 3, none⟩).ClusterInfo.GetCbtData.get true) :=
  ⟨by decide,
   C6_no_stale_nonzero_write true true true ⟨⟨none, some 4⟩⟩ (ctxOfCounts ⟨some 3, none⟩)
     [("DISABLED", 4)] true 3 (by decide)⟩

/-! ## Classification of one entity (`CheckNode`) -/

/-- C7: for every property bag in which no pair has a key exactly equal to `ctkEnabled`,
`CheckNode` returns `nil` and records DISABLED: its one call of `SetCbtData` is
`SetCbtData(false)`, so the call history grows by `false` alone and never by `true`. -/
theorem C7_absence_defaults_to_disabled (ctx : CheckContext) (bag : List OptionValue)
    (h : ∀ p ∈ bag, p.Key ≠ CbtProperty) :
    CheckNode ctx (vmOfBag bag) =
        .returned ({ ClusterInfo := ctx.ClusterInfo.SetCbtData false }, none) ∧
      (ctx.ClusterInfo.SetCbtData false).setCbtDataCalls =
        ctx.ClusterInfo.setCbtDataCalls ++ [false] := by
  refine ⟨?_, rfl⟩
  rw [CheckNode_vmOfBag]
  have hnone : (bag.find? fun p => decide (p.Key = CbtProperty)) = none := by
    rw [List.find?_eq_none]
    intro p hp
    simpa using h p hp
  simp [classify, hnone]

/-- C7, at the empty bag and at a bag whose key differs from `ctkEnabled` in letter case
only: DISABLED is recorded even for the value `"true"`. -/
theorem C7_absence_defaults_to_disabled_witness :
    (∀ p ∈ [(⟨"CTKENABLED", .str "true"⟩ : OptionValue)], p.Key ≠ CbtProperty) ∧
    CheckNode (ctxOfCounts BoolIntMap.empty) (vmOfBag [⟨"CTKENABLED", .str "true"⟩]) =
      .returned ({ ClusterInfo := ⟨⟨none, some 1⟩, [false]⟩ }, none) ∧
    CheckNode (ctxOfCounts BoolIntMap.empty) (vmOfBag []) =
      .returned ({ ClusterInfo := ⟨⟨none, some 1⟩, [false]⟩ }, none) :=
  ⟨by decide,
   (C7_absence_defaults_to_disabled (ctxOfCounts BoolIntMap.empty)
      [⟨"CTKENABLED", .str "true"⟩] (by decide)).1,
   (C7_absence_defaults_to_disabled (ctxOfCounts BoolIntMap.empty) []
      (by simp)).1⟩

/-- C8: for every property bag whose first pair with key `ctkEnabled` is `p`, `CheckNode`
returns `nil` after the one call `SetCbtData(b)`, where `b` is `true` (ENABLED) if and
only if the text rendering of the value of `p` is one of the sixteen spellings of `true`
that differ in letter case, and `false` (DISABLED) for every other rendering. -/
theorem C8_case_insensitive_true (ctx : CheckContext) (bag : List OptionValue)
    (p : OptionValue)
    (h : (bag.find? fun q => decide (q.Key = CbtProperty)) = some p) :
    CheckNode ctx (vmOfBag bag) =
      .returned ({ ClusterInfo :=
        ctx.ClusterInfo.SetCbtData (decide (Sprintf_v p.Value ∈ trueSpellings)) }, none) := by
  rw [CheckNode_vmOfBag]
  simp [classify, h]

/-- C8, at the boolean `true` (rendered `true`), at the spelling `tRuE`, and at the
renderings `false`, `1`, `yes`, ` true` and the empty text. -/
theorem C8_case_insensitive_true_witness :
    (([⟨"ctkEnabled", .bool true⟩] : List OptionValue).find?
        fun q => decide (q.Key = CbtProperty)) = some ⟨"ctkEnabled", .bool true⟩ ∧
    CheckNode (ctxOfCounts BoolIntMap.empty) (vmOfBag [⟨"ctkEnabled", .bool true⟩]) =
      .returned ({ ClusterInfo := ⟨⟨some 1, none⟩, [true]⟩ }, none) ∧
    CheckNode (ctxOfCounts BoolIntMap.empty) (vmOfBag [⟨"ctkEnabled", .str "tRuE"⟩]) =
      .returned ({ ClusterInfo := ⟨⟨some 1, none⟩, [true]⟩ }, none) ∧
    (∀ s ∈ ["false", "1", "yes", " true", ""],
      CheckNode (ctxOfCounts BoolIntMap.empty) (vmOfBag [⟨"ctkEnabled", .str s⟩]) =
        .returned ({ ClusterInfo := ⟨⟨none, some 1⟩, [false]⟩ }, none)) :=
  ⟨by decide,
   C8_case_insensitive_true (ctxOfCounts BoolIntMap.empty) [⟨"ctkEnabled", .bool true⟩]
     ⟨"ctkEnabled", .bool true⟩ (by decide),
   by decide, by decide⟩

/-- C9: for every property bag `pre ++ [(ctkEnabled, v)] ++ rest` in which no pair of
`pre` has key `ctkEnabled`, `CheckNode` returns what it returns on
`pre ++ [(ctkEnabled, v)]`: `nil`, after the one call of `SetCbtData` decided by `v`
alone. The pairs of `rest` never change the result. -/
theorem C9_first_match_decides (ctx : CheckContext) (pre rest : List OptionValue)
    (v : AnyType) (h : ∀ p ∈ pre, p.Key ≠ CbtProperty) :
    CheckNode ctx (vmOfBag (pre ++ [⟨CbtProperty, v⟩] ++ rest)) =
        CheckNode ctx (vmOfBag (pre ++ [⟨CbtProperty, v⟩])) ∧
      CheckNode ctx (vmOfBag (pre ++ [⟨CbtProperty, v⟩])) =
        .returned ({ ClusterInfo :=
          ctx.ClusterInfo.SetCbtData (decide (Sprintf_v v ∈ trueSpellings)) }, none) := by
  have hfind := fun tail => find?_first_match pre tail v h
  have h1 := hfind rest
  have h2 := hfind []
  rw [List.append_nil] at h2
  rw [CheckNode_vmOfBag, CheckNode_vmOfBag]
  unfold classify
  rw [h1, h2]
  exact ⟨rfl, rfl⟩

/-- C9, at the bag `[(ctkEnabled, "false"), (ctkEnabled, "true")]`: DISABLED. -/
theorem C9_first_match_decides_witness :
    (∀ p ∈ ([] : List OptionValue), p.Key ≠ CbtProperty) ∧
    CheckNode (ctxOfCounts BoolIntMap.empty)
        (vmOfBag ([] ++ [⟨CbtProperty, .str "false"⟩] ++ [⟨CbtProperty, .str "true"⟩])) =
      .returned ({ ClusterInfo := ⟨⟨none, some 1⟩, [false]⟩ }, none) :=
  ⟨by simp,
   ((C9_first_match_decides (ctxOfCounts BoolIntMap.empty) []
      [⟨CbtProperty, .str "true"⟩] (.str "false") (by simp)).1).trans (by decide)⟩

/-- C10: for every property bag, `CheckNode` returns the error `nil` after exactly one
call of `SetCbtData`; and after `CheckNode` on each of `n` bags, starting from a fresh
`ClusterInfo`, the calls returned, `SetCbtData` was called `n` times and the ENABLED and
DISABLED counts add up to `n`. -/
theorem C10_count_conservation :
    (∀ (ctx : CheckContext) (bag : List OptionValue), ∃ b : Bool,
      CheckNode ctx (vmOfBag bag) =
          .returned ({ ClusterInfo := ctx.ClusterInfo.SetCbtData b }, none) ∧
        (ctx.ClusterInfo.SetCbtData b).setCbtDataCalls =
          ctx.ClusterInfo.setCbtDataCalls ++ [b]) ∧
    (∀ bags : List (List OptionValue), ∃ ctx : CheckContext,
      CheckNodes { ClusterInfo := ClusterInfo.new } (bags.map vmOfBag) = .returned ctx ∧
        ctx.ClusterInfo.setCbtDataCalls.length = bags.length ∧
        ctx.ClusterInfo.GetCbtData.get true + ctx.ClusterInfo.GetCbtData.get false
          = (bags.length : Int)) := by
  refine ⟨fun ctx bag => ⟨classify bag, CheckNode_vmOfBag ctx bag, rfl⟩, fun bags => ?_⟩
  refine ⟨_, CheckNodes_new bags, by simp, ?_⟩
  simp only [ClusterInfo.GetCbtData, BoolIntMap.get, BoolIntMap.lookup, if_true,
    Bool.false_eq_true, if_false, countSlot_getD]
  have hlen : (bags.filter classify).length + (bags.filter fun bag => !classify bag).length
      = bags.length := by
    induction bags with
    | nil => rfl
    | cons bag bags ih => cases hb : classify bag <;> simp [List.filter_cons, hb] <;> omega
  exact_mod_cast hlen

/-! ## The life cycle -/

theorem step_startCheck (s : State) : step s .startCheck = .returned s := rfl

theorem step_checkNode_vmOfBag (s : State) (bag : List OptionValue) :
    step s (.checkNode (vmOfBag bag)) =
      .returned { s with ctx := { ClusterInfo := s.ctx.ClusterInfo.SetCbtData (classify bag) } } := by
  simp only [step, CheckNode_vmOfBag]

theorem get_SetCbtData (ci : ClusterInfo) (x b : Bool) :
    (ci.SetCbtData x).GetCbtData.get b = ci.GetCbtData.get b + if x = b then 1 else 0 := by
  obtain ⟨⟨ct, cf⟩, calls⟩ := ci
  cases x <;> cases b <;>
    simp [ClusterInfo.SetCbtData, ClusterInfo.GetCbtData, BoolIntMap.set, BoolIntMap.get,
      BoolIntMap.lookup]

theorem runCalls_checkNodeCalls (s : State) (bags : List (List OptionValue)) :
    (runCalls s (checkNodeCalls bags)).checker = s.checker ∧
    (runCalls s (checkNodeCalls bags)).metric = s.metric ∧
    (runCalls s (checkNodeCalls bags)).ctx.ClusterInfo.setCbtDataCalls =
      s.ctx.ClusterInfo.setCbtDataCalls ++ bags.map classify ∧
    ∀ b, (runCalls s (checkNodeCalls bags)).ctx.ClusterInfo.GetCbtData.get b =
      s.ctx.ClusterInfo.GetCbtData.get b + ((bags.filter fun bag => classify bag = b).length : Int) := by
  induction bags generalizing s with
  | nil => simp [checkNodeCalls, runCalls]
  | cons bag bags ih =>
    have hrun : runCalls s (checkNodeCalls (bag :: bags)) =
        runCalls { s with ctx := { ClusterInfo := s.ctx.ClusterInfo.SetCbtData (classify bag) } }
          (checkNodeCalls bags) := by
      simp only [checkNodeCalls, List.map_cons, runCalls, step_checkNode_vmOfBag]
    rw [hrun]
    obtain ⟨h1, h2, h3, h4⟩ := ih
      { s with ctx := { ClusterInfo := s.ctx.ClusterInfo.SetCbtData (classify bag) } }
    refine ⟨h1, h2, ?_, fun b => ?_⟩
    · rw [h3]; simp [ClusterInfo.SetCbtData]
    · rw [h4, get_SetCbtData]
      by_cases hb : classify bag = b
      · simp [List.filter_cons, hb]; omega
      · simp [List.filter_cons, hb]

theorem FinishCheck_labels (o2 o3 : Bool) (mem cbtData : BoolIntMap) :
    ∀ w ∈ countWrites o2 cbtData ++ zeroWrites o3 mem, ∃ b, w.1 = metricKey b := by
  intro w hw
  rcases List.mem_append.1 hw with hw | hw
  · obtain ⟨kv, _, rfl⟩ := List.mem_map.1 hw
    exact ⟨kv.1, rfl⟩
  · obtain ⟨kv, _, rfl⟩ := List.mem_map.1 hw
    exact ⟨kv.1, rfl⟩

/-- After `FinishCheck` the gauge `MISMATCH` reads the value written by its `if`. -/
theorem FinishCheck_read_mismatch (o1 o2 o3 : Bool) (c : CollectNodeCBT) (ctx : CheckContext)
    (metric : GaugeVec) :
    (FinishCheck o1 o2 o3 c ctx metric).2.read "MISMATCH" =
      some (mismatchValue ctx.ClusterInfo.cbtData) := by
  rw [FinishCheck_eq, read_append, read_cons_self]
  intro w hw
  obtain ⟨b, hb⟩ := FinishCheck_labels o2 o3 _ _ w hw
  rw [hb]
  exact metricKey_ne_mismatch b

/-- After `FinishCheck` the gauge of a classification reads `0` when the classification
is a key of the memory, else its count when it is a key of the counts, else what it
read before. -/
theorem FinishCheck_read_class (o1 o2 o3 : Bool) (c : CollectNodeCBT) (ctx : CheckContext)
    (metric : GaugeVec) (b : Bool) :
    (FinishCheck o1 o2 o3 c ctx metric).2.read (metricKey b) =
      classRead c.lastMetricEmission ctx.ClusterInfo.GetCbtData metric b := by
  unfold classRead
  cases hm : c.lastMetricEmission.lookup b with
  | some x => exact FinishCheck_read_zero o1 o2 o3 c ctx metric b x hm
  | none =>
    cases hn : ctx.ClusterInfo.GetCbtData.lookup b with
    | some n => exact FinishCheck_read_count o1 o2 o3 c ctx metric b n hn hm
    | none => exact FinishCheck_read_untouched o1 o2 o3 c ctx metric b hn hm

/-- A label that `FinishCheck` never uses reads after the call what it read before. -/
theorem FinishCheck_read_other (o1 o2 o3 : Bool) (c : CollectNodeCBT) (ctx : CheckContext)
    (metric : GaugeVec) (l : String) (h1 : l ≠ "MISMATCH") (h2 : ∀ b, l ≠ metricKey b) :
    (FinishCheck o1 o2 o3 c ctx metric).2.read l = metric.read l := by
  rw [FinishCheck_eq, read_append]
  have hnone : GaugeVec.read (("MISMATCH", mismatchValue ctx.ClusterInfo.cbtData)
      :: (countWrites o2 ctx.ClusterInfo.cbtData ++ zeroWrites o3 c.lastMetricEmission)) l
        = none := by
    unfold GaugeVec.read
    rw [Option.map_eq_none', List.find?_eq_none]
    intro w hw
    rcases List.mem_cons.1 (List.mem_reverse.1 hw) with hw | hw
    · subst hw
      simpa using fun h => h1 h.symm
    · obtain ⟨b, hb⟩ := FinishCheck_labels o2 o3 _ _ w hw
      rw [hb]
      simpa using fun h => h2 b h.symm
  rw [hnone]

theorem read_Set_ne (g : GaugeVec) (l l1 : String) (v : Int) (h : l1 ≠ l) :
    (g.Set l1 v).read l = g.read l := by
  unfold GaugeVec.Set
  rw [read_append]
  have : GaugeVec.read [(l1, v)] l = none := by simp [GaugeVec.read, h]
  rw [this]

theorem runCalls_memory_empty (s : State) (calls : List Call)
    (h : s.checker.lastMetricEmission = BoolIntMap.empty) :
    (runCalls s calls).checker.lastMetricEmission = BoolIntMap.empty := by
  induction calls generalizing s with
  | nil => exact h
  | cons call calls ih =>
    unfold runCalls
    cases call with
    | startCheck => exact ih _ h
    | checkNode vm =>
      simp only [step]
      cases hcn : CheckNode s.ctx vm with
      | returned r => exact ih _ h
      | panicked => exact h
      | outOfFuel => exact h
    | finishCheck o1 o2 o3 =>
      refine ih _ ?_
      show (FinishCheck o1 o2 o3 s.checker s.ctx s.metric).1.lastMetricEmission = _
      rw [FinishCheck_memory, h]
      rfl

/-! ## Cycle start, bad input, label series, memory and iteration order -/

/-- C11 (counterexample): on a state whose counts are `{ENABLED: 5}`, `StartCheck`
returns and the ENABLED count is still `5`, not zero. And without a fresh `ClusterInfo`
the second of two cycles reports an entity of the first: one ENABLED entity in cycle 1
and one DISABLED entity in cycle 2 end with `ENABLED = 1`, `DISABLED = 1` and
`MISMATCH = 1`. -/
theorem C11_start_check_resets_counts_counterexample :
    (∃ s1 : State,
      step ⟨⟨BoolIntMap.empty⟩, ctxOfCounts ⟨some 5, none⟩, []⟩ .startCheck = .returned s1 ∧
      s1.ctx.ClusterInfo.GetCbtData.get true = 5) ∧
    (runCalls ⟨⟨BoolIntMap.empty⟩, ⟨ClusterInfo.new⟩, []⟩
      [.startCheck, .checkNode (vmOfBag [⟨"ctkEnabled", .str "true"⟩]),
       .finishCheck true true true,
       .startCheck, .checkNode (vmOfBag [⟨"ctkEnabled", .str "false"⟩]),
       .finishCheck true true true]).metric
      = [("MISMATCH", 0), ("ENABLED", 1),
         ("MISMATCH", 1), ("ENABLED", 1), ("DISABLED", 1)] := by
  refine ⟨⟨_, rfl, by decide⟩, by decide⟩

/-- C11 (amended): `StartCheck` returns and leaves the whole state, the counts included,
as it was; after `StartCheck` and then `CheckNode` on each of a list of property bags,
the count of every classification is its count before `StartCheck` plus the number of
those bags with that classification. So the counts `FinishCheck` reads reflect the
`CheckNode` calls made since `StartCheck` alone exactly when the counts were zero at
`StartCheck`. -/
theorem C11_start_check_keeps_counts (s : State) (bags : List (List OptionValue))
    (b : Bool) :
    step s .startCheck = .returned s ∧
    (runCalls s (.startCheck :: checkNodeCalls bags)).ctx.ClusterInfo.GetCbtData.get b =
      s.ctx.ClusterInfo.GetCbtData.get b +
        ((bags.filter fun bag => classify bag = b).length : Int) := by
  refine ⟨rfl, ?_⟩
  have hrun : runCalls s (.startCheck :: checkNodeCalls bags)
      = runCalls s (checkNodeCalls bags) := rfl
  rw [hrun]
  exact (runCalls_checkNodeCalls s bags).2.2.2 b

/-- C12 (the code at an absent configuration): on a virtual machine whose `Config` is
`nil`, `CheckNode` panics, whatever the context, and records no classification; the
driver's loop over the entities ends there, before the entities that follow. With a
configuration whose extra-config list is empty (or `nil`) it returns and records
DISABLED. -/
theorem C12_nil_config_panics (ctx : CheckContext) :
    CheckNode ctx { Config := none } = .panicked ∧
    CheckNodes ctx [{ Config := none }, vmOfBag [⟨"ctkEnabled", .str "true"⟩]] = .panicked ∧
    (runCalls ⟨⟨BoolIntMap.empty⟩, ctx, []⟩
      [.checkNode { Config := none }]).ctx.ClusterInfo.setCbtDataCalls
        = ctx.ClusterInfo.setCbtDataCalls ∧
    CheckNode ctx { Config := some { ExtraConfig := [] } } =
      .returned ({ ClusterInfo := ctx.ClusterInfo.SetCbtData false }, none) :=
  ⟨rfl, rfl, rfl, rfl⟩

/-- C13: `metricKey(true)` is `ENABLED` and `metricKey(false)` is `DISABLED`, so
`metricKey` is injective and never returns `MISMATCH`. Hence a write under the label of
a classification leaves what the gauge `MISMATCH` and the gauge of the other
classification read; every write of `FinishCheck` after its `MISMATCH` write is under
the label of a classification, and after `FinishCheck` the gauge `MISMATCH` reads what
that first write stored. -/
theorem C13_distinct_label_series :
    metricKey true = "ENABLED" ∧ metricKey false = "DISABLED" ∧
    Function.Injective metricKey ∧ (∀ b, metricKey b ≠ "MISMATCH") ∧
    (∀ (g : GaugeVec) (b : Bool) (v : Int),
      (g.Set (metricKey b) v).read "MISMATCH" = g.read "MISMATCH" ∧
      (g.Set (metricKey b) v).read (metricKey (!b)) = g.read (metricKey (!b))) ∧
    (∀ (o1 o2 o3 : Bool) (c : CollectNodeCBT) (ctx : CheckContext) (metric : GaugeVec),
      ∃ ws : GaugeVec,
        (FinishCheck o1 o2 o3 c ctx metric).2 =
          metric.Set "MISMATCH" (mismatchValue ctx.ClusterInfo.GetCbtData) ++ ws ∧
        (∀ w ∈ ws, ∃ b, w.1 = metricKey b) ∧
        (FinishCheck o1 o2 o3 c ctx metric).2.read "MISMATCH" =
          (metric.Set "MISMATCH" (mismatchValue ctx.ClusterInfo.GetCbtData)).read
            "MISMATCH") := by
  refine ⟨rfl, rfl, fun a b h => metricKey_inj h, metricKey_ne_mismatch, ?_, ?_⟩
  · intro g b v
    refine ⟨read_Set_ne g _ _ v (metricKey_ne_mismatch b), read_Set_ne g _ _ v ?_⟩
    cases b <;> decide
  · intro o1 o2 o3 c ctx metric
    refine ⟨countWrites o2 ctx.ClusterInfo.cbtData ++ zeroWrites o3 c.lastMetricEmission,
      ?_, FinishCheck_labels o2 o3 _ _, ?_⟩
    · rw [FinishCheck_eq]
      simp [GaugeVec.Set, ClusterInfo.GetCbtData]
    · rw [FinishCheck_read_mismatch]
      unfold GaugeVec.Set
      rw [read_append, read_cons_self _ _ _ (by simp)]
      rfl

/-- C14: for every counts map and every memory, `FinishCheck` leaves
`lastMetricEmission` with the keys it had and with every value `0`; `StartCheck` and
`CheckNode` leave the checker as it was; and a checker whose memory is empty (or `nil`)
still has an empty memory after any sequence of `StartCheck`, `CheckNode` and
`FinishCheck` calls. -/
theorem C14_memory_never_grows :
    (∀ (o1 o2 o3 : Bool) (c : CollectNodeCBT) (ctx : CheckContext) (metric : GaugeVec)
        (k : Bool),
      ((FinishCheck o1 o2 o3 c ctx metric).1.lastMetricEmission.lookup k).isSome =
          (c.lastMetricEmission.lookup k).isSome ∧
        ∀ v, (FinishCheck o1 o2 o3 c ctx metric).1.lastMetricEmission.lookup k = some v →
          v = 0) ∧
    (∀ s : State, (runCalls s [.startCheck]).checker = s.checker) ∧
    (∀ (s : State) (vm : VirtualMachine), (runCalls s [.checkNode vm]).checker = s.checker) ∧
    (∀ (s : State) (calls : List Call),
      s.checker.lastMetricEmission = BoolIntMap.empty →
        (runCalls s calls).checker.lastMetricEmission = BoolIntMap.empty) := by
  refine ⟨?_, fun s => rfl, ?_, runCalls_memory_empty⟩
  · intro o1 o2 o3 c ctx metric k
    rw [FinishCheck_memory]
    obtain ⟨⟨mt, mf⟩⟩ := c
    cases k <;> cases mt <;> cases mf <;> simp [zeroed, BoolIntMap.lookup]
  · intro s vm
    simp only [runCalls, step]
    cases CheckNode s.ctx vm <;> rfl

/-- C14, at a checker with an empty memory that goes through two cycles, and at a memory
`{true: 5}`, which keeps its one key with value `0`. -/
theorem C14_memory_never_grows_witness :
    (runCalls ⟨⟨BoolIntMap.empty⟩, ⟨ClusterInfo.new⟩, []⟩
      [.startCheck, .checkNode (vmOfBag [⟨"ctkEnabled", .str "true"⟩]),
       .finishCheck true false true,
       .startCheck, .checkNode (vmOfBag []),
       .finishCheck false true false]).checker.lastMetricEmission = BoolIntMap.empty ∧
    (FinishCheck true true true ⟨⟨some 5, none⟩⟩ (ctxOfCounts ⟨some 3, some 1⟩)
      []).1.lastMetricEmission = ⟨some 0, none⟩ :=
  ⟨C14_memory_never_grows.2.2.2 _ _ rfl, by decide⟩

/-- C15: for every counts map, every memory and every gauge vector, what each gauge label
reads after `FinishCheck` (`MISMATCH`, `ENABLED`, `DISABLED`, and any other label) and
the `lastMetricEmission` after `FinishCheck` are the same for every order in which the
three `range` loops visit their keys. -/
theorem C15_order_independence (o1 o2 o3 p1 p2 p3 : Bool) (c : CollectNodeCBT)
    (ctx : CheckContext) (metric : GaugeVec) (label : String) :
    (FinishCheck o1 o2 o3 c ctx metric).2.read label =
        (FinishCheck p1 p2 p3 c ctx metric).2.read label ∧
      (FinishCheck o1 o2 o3 c ctx metric).1 = (FinishCheck p1 p2 p3 c ctx metric).1 := by
  refine ⟨?_, by rw [FinishCheck_eq, FinishCheck_eq]⟩
  by_cases h1 : label = "MISMATCH"
  · subst h1
    rw [FinishCheck_read_mismatch, FinishCheck_read_mismatch]
  · by_cases h2 : ∃ b, label = metricKey b
    · obtain ⟨b, rfl⟩ := h2
      rw [FinishCheck_read_class, FinishCheck_read_class]
    · have h3 : ∀ b, label ≠ metricKey b := fun b hb => h2 ⟨b, hb⟩
      rw [FinishCheck_read_other _ _ _ _ _ _ _ h1 h3,
        FinishCheck_read_other _ _ _ _ _ _ _ h1 h3]

/-! ## Count emission -/

/-- The writes of one `FinishCheck` under the label of a classification that is not a key
of the memory and whose count is strictly positive: the count, once. -/
theorem FinishCheck_writesTo_count (o1 o2 o3 : Bool) (c : CollectNodeCBT)
    (ctx : CheckContext) (metric : GaugeVec) (b : Bool)
    (hpos : 0 < ctx.ClusterInfo.GetCbtData.get b)
    (hkey : c.lastMetricEmission.lookup b = none) :
    (writesSince metric (FinishCheck o1 o2 o3 c ctx metric).2).writesTo (metricKey b) =
      [ctx.ClusterInfo.GetCbtData.get b] := by
  rw [FinishCheck_eq, writesSince_append]
  obtain ⟨⟨mt, mf⟩⟩ := c
  obtain ⟨⟨⟨ct, cf⟩, calls⟩⟩ := ctx
  cases b <;> cases o2 <;> cases o3 <;> cases mt <;> cases mf <;> cases ct <;> cases cf <;>
    simp_all [GaugeVec.writesTo, countWrites, zeroWrites, BoolIntMap.range, BoolIntMap.lookup,
      BoolIntMap.get, ClusterInfo.GetCbtData, metricKey, List.filter_cons]

/-- C4 (counterexample): with `lastMetricEmission = {true: 5}` and the counts
`{ENABLED: 3}`, `FinishCheck` writes `ENABLED = 3` and then, in its last loop,
`ENABLED = 0`: the last value it wrote to the gauge `ENABLED` is `0`, while the count of
ENABLED is `3`, strictly positive. -/
theorem C4_count_emission_counterexample :
    0 < (ctxOfCounts ⟨some 3, none⟩).ClusterInfo.GetCbtData.get true ∧
    writesSince [] (FinishCheck true true true ⟨⟨some 5, none⟩⟩
        (ctxOfCounts ⟨some 3, none⟩) []).2 =
      [("MISMATCH", 0), ("ENABLED", 3), ("ENABLED", 0)] ∧
    ((writesSince [] (FinishCheck true true true ⟨⟨some 5, none⟩⟩
        (ctxOfCounts ⟨some 3, none⟩) []).2).writesTo (metricKey true)).getLast? = some 0 ∧
    ((writesSince [] (FinishCheck true true true ⟨⟨some 5, none⟩⟩
        (ctxOfCounts ⟨some 3, none⟩) []).2).writesTo (metricKey true)).getLast? ≠
      some ((ctxOfCounts ⟨some 3, none⟩).ClusterInfo.GetCbtData.get true) := by
  decide

/-- C4 (amended): for every counts map, every gauge vector and every memory that holds no
key for the classification `b`, if the count of `b` is strictly positive then the last
value `FinishCheck` wrote to the gauge labelled `metricKey b` is that count, and the
gauge reads it when `FinishCheck` returns. The memory of a checker created with an empty
(or `nil`) `lastMetricEmission` holds no key after any sequence of `StartCheck`,
`CheckNode` and `FinishCheck` calls, so this covers every `FinishCheck` of such a
checker. -/
theorem C4_count_is_last_write :
    (∀ (o1 o2 o3 : Bool) (c : CollectNodeCBT) (ctx : CheckContext) (metric : GaugeVec)
        (b : Bool),
      c.lastMetricEmission.lookup b = none →
      0 < ctx.ClusterInfo.GetCbtData.get b →
        ((writesSince metric (FinishCheck o1 o2 o3 c ctx metric).2).writesTo
            (metricKey b)).getLast? = some (ctx.ClusterInfo.GetCbtData.get b) ∧
          (FinishCheck o1 o2 o3 c ctx metric).2.read (metricKey b) =
            some (ctx.ClusterInfo.GetCbtData.get b)) ∧
    (∀ (s0 : State) (calls : List Call) (o1 o2 o3 : Bool) (b : Bool),
      s0.checker.lastMetricEmission = BoolIntMap.empty →
      0 < (runCalls s0 calls).ctx.ClusterInfo.GetCbtData.get b →
        ((writesSince (runCalls s0 calls).metric
            (FinishCheck o1 o2 o3 (runCalls s0 calls).checker (runCalls s0 calls).ctx
              (runCalls s0 calls).metric).2).writesTo (metricKey b)).getLast? =
          some ((runCalls s0 calls).ctx.ClusterInfo.GetCbtData.get b) ∧
        (FinishCheck o1 o2 o3 (runCalls s0 calls).checker (runCalls s0 calls).ctx
            (runCalls s0 calls).metric).2.read (metricKey b) =
          some ((runCalls s0 calls).ctx.ClusterInfo.GetCbtData.get b)) := by
  have main : ∀ (o1 o2 o3 : Bool) (c : CollectNodeCBT) (ctx : CheckContext)
      (metric : GaugeVec) (b : Bool),
      c.lastMetricEmission.lookup b = none →
      0 < ctx.ClusterInfo.GetCbtData.get b →
        ((writesSince metric (FinishCheck o1 o2 o3 c ctx metric).2).writesTo
            (metricKey b)).getLast? = some (ctx.ClusterInfo.GetCbtData.get b) ∧
          (FinishCheck o1 o2 o3 c ctx metric).2.read (metricKey b) =
            some (ctx.ClusterInfo.GetCbtData.get b) := by
    intro o1 o2 o3 c ctx metric b hkey hpos
    refine ⟨by rw [FinishCheck_writesTo_count o1 o2 o3 c ctx metric b hpos hkey]; rfl, ?_⟩
    cases hn : ctx.ClusterInfo.GetCbtData.lookup b with
    | none =>
      have : ctx.ClusterInfo.GetCbtData.get b = 0 := by simp [BoolIntMap.get, hn]
      omega
    | some n =>
      have hget : ctx.ClusterInfo.GetCbtData.get b = n := by simp [BoolIntMap.get, hn]
      rw [hget]
      exact FinishCheck_read_count o1 o2 o3 c ctx metric b n hn hkey
  refine ⟨main, ?_⟩
  intro s0 calls o1 o2 o3 b hempty hpos
  refine main o1 o2 o3 _ _ _ b ?_ hpos
  rw [runCalls_memory_empty s0 calls hempty]
  cases b <;> rfl

/-- C4 (amended), at a checker created with an empty memory, in its second cycle on the
counts `{ENABLED: 3, DISABLED: 1}`: the last write under `ENABLED` is `3`; and at the
memory `{false: 4}`, which holds no key for ENABLED. -/
theorem C4_count_is_last_write_witness :
    ((writesSince [("DISABLED", 4)]
        (FinishCheck true true true ⟨⟨none, some 4⟩⟩ (ctxOfCounts ⟨some 3, some 1⟩)
          [("DISABLED", 4)]).2).writesTo (metricKey true)).getLast? = some 3 ∧
    (FinishCheck true false true
        (runCalls ⟨⟨BoolIntMap.empty⟩, ctxOfCounts ⟨some 3, some 1⟩, []⟩
          [.startCheck, .finishCheck true true true, .startCheck]).checker
        (runCalls ⟨⟨BoolIntMap.empty⟩, ctxOfCounts ⟨some 3, some 1⟩, []⟩
          [.startCheck, .finishCheck true true true, .startCheck]).ctx
        (runCalls ⟨⟨BoolIntMap.empty⟩, ctxOfCounts ⟨some 3, some 1⟩, []⟩
          [.startCheck, .finishCheck true true true, .startCheck]).metric).2.read
      (metricKey true) = some 3 :=
  ⟨(C4_count_is_last_write.1 true true true ⟨⟨none, some 4⟩⟩ (ctxOfCounts ⟨some 3, some 1⟩)
      [("DISABLED", 4)] true rfl (by decide)).1,
   (C4_count_is_last_write.2 ⟨⟨BoolIntMap.empty⟩, ctxOfCounts ⟨some 3, some 1⟩, []⟩
      [.startCheck, .finishCheck true true true, .startCheck] true false true true rfl
      (by decide)).2⟩

/-- The `Help` text of `cbtMismatchMetric` calls it a Boolean metric; only the `MISMATCH`
label is one. With the counts `{ENABLED: 5, DISABLED: 2}` the count loop of `FinishCheck`
writes the values `5` and `2` to the same gauge vector. -/
theorem FinishCheck_writes_counts_not_booleans (o1 o3 : Bool) :
    FinishCheck o1 true o3 ⟨BoolIntMap.empty⟩ (ctxOfCounts ⟨some 5, some 2⟩) [] =
      (⟨BoolIntMap.empty⟩, [("MISMATCH", 1), ("ENABLED", 5), ("DISABLED", 2)]) := by
  revert o1 o3
  decide

end NodeCBT
